import Mathlib

/-!
# Koi: a formal model of the interpreter core and the command parser

A shallow embedding, in Lean 4, of the Koi scripting-language core:

* the value model and function representation
  (`src/interp/mod.rs`, `src/interp/func.rs`);
* the environment stack (spec section 4.2; the `stack.rs` module itself is
  not among the sources, so its five operations are modelled from the spec);
* statement execution and expression evaluation
  (`Interpreter::run_stmt`, `Interpreter::eval` in `src/interp/mod.rs`);
* the command-pipeline parser (`src/parser/cmd.rs`).

Modelling conventions:

* Rust `f64` numbers are modelled as rationals.  Every claim under study
  exercises only integer-valued numbers, for which rational and double
  arithmetic agree exactly (an `i32` or small integer is representable
  exactly in `f64`); the transcendental `powf`, division by zero
  (`inf`/`NaN`) and the shortest-decimal rendering of non-integral floats
  are outside the fragment used by any theorem below.
* `x as i32` and `x as usize` on a float truncate toward zero and
  saturate at the target bounds, as in Rust; they are modelled by
  `toI32` / `toUsize` below.  `i32` addition wraps (`wrap32`), the
  release-profile behaviour.
* `Rc<RefCell<Vec<Value>>>` / `Rc<RefCell<HashMap<String, Value>>>` are
  modelled as addresses into per-kind heaps carried by the interpreter
  state; cloning a `Value` clones the handle (the address), exactly like
  `Rc::clone`.  `HashMap` is modelled as an association list with
  insert-or-overwrite semantics; its iteration order is the list order
  (the claims proved below do not depend on iteration order).
* Rust panics (`panic!`, failed `assert!`/`expect`/`unwrap`, array
  indexing out of bounds) abort the run; they are modelled as an `Err`
  result carrying the kind of failure, named after the spec's error
  taxonomy (section 7).
* Unbounded recursion (`while`, loops, calls) is made total with a fuel
  parameter; exhaustion is a distinct `timeout` outcome, never identified
  with any behaviour of the program.
* The process launcher is an external collaborator (spec section 6); the
  evaluator is parameterised over it (`Launcher`).
-/

namespace Koi

/-! ## AST operator kinds (src/ast/mod.rs) -/

/-- Unary operators, from `ast::UnaryOp`.  `eval` implements only `Neg`
and `Not`; the increment/decrement forms fall into its final
`unreachable!()` arm. -/
inductive UnaryOp where
  | neg | not
  | preDec | preInc | postDec | postInc
deriving DecidableEq

/-- Binary operators, from `ast::BinaryOp`. -/
inductive BinaryOp where
  | sum | sub | mul | div | mod | pow
  | great | less
  | equal
  | and | or
deriving DecidableEq

/-- Command-tree operators, from `ast::CmdOp` (the enum is referenced by
`parser/cmd.rs`; its declaration file is not among the sources, the
constructor names are exactly those used there). -/
inductive CmdOp where
  | orC | andC
  | outPipe | errPipe | allPipe
  | outWrite | errWrite | allWrite
  | outRead | errRead | allRead
deriving DecidableEq

/-- Tags for the host-language function pointers that can sit inside a
native `Func`.  The interpreter registers exactly one native,
`print` (`Interpreter::init_native_funcs`). -/
inductive NativeImpl where
  | print
deriving DecidableEq

/-! ## AST and value model

One mutual family: `Expr`/`Stmt` from `ast` (the `Stmt` enum and the
command/range/call expression variants are declared in an `ast` file not
among the sources; each constructor below mirrors the pattern with which
`interp/mod.rs` or `parser/cmd.rs` consumes it), `Value`/`Func` from
`interp/mod.rs` and `interp/func.rs`, `Cmd` from `ast` as consumed by
`parser/cmd.rs`.

The `Func` shape is the richer one of `src/interp/func.rs` (optional
captured environment, native arity and receiver), which the spec adopts
(section 9).  The captured environment is modelled as a snapshot of the
defining frame's bindings.

`Expr::Lambda` is `todo!()` in `eval` and carries no behaviour to model;
it is omitted. -/

mutual

inductive Expr where
  | literal (v : Value)
  | vecE (elems : List Expr)
  | dictE (pairs : List (String × Expr))
  | cmdE (c : Cmd)
  | get (name : String)
  | getField (base index : Expr)
  | set (name : String) (e : Expr)
  | setField (base index value : Expr)
  | interp (strings : List String) (exprs : List Expr)
  | rangeE (l r : Expr) (inclusive : Bool)
  | binary (lhs : Expr) (op : BinaryOp) (rhs : Expr)
  | unary (op : UnaryOp) (e : Expr)
  | call (func : Expr) (args : List Expr)

inductive Stmt where
  | cmd (c : Cmd)
  | letS (name : String) (init : Option Expr) (isExp : Bool)
  | exprS (e : Expr)
  | block (stmts : List Stmt)
  | forS (lvar : String) (rvar : Option String) (iterated : Expr) (eachDo : Stmt)
  | whileS (cond : Expr) (thenDo : Stmt)
  | ifS (cond : Expr) (thenDo : Stmt) (elseDo : Option Stmt)
  | continueS
  | breakS
  | retS (e : Option Expr)

inductive Value where
  | nil
  | num (q : ℚ)
  | str (s : String)
  | bool (b : Bool)
  | vecV (addr : Nat)
  | dictV (addr : Nat)
  | rangeV (l r : Int)
  | funcV (f : Func)

inductive Func where
  | user (name : Option String) (params : List String) (body : Stmt)
      (capturedEnv : Option (List (String × Value)))
  | native (name : String) (params : Option Nat) (impl : NativeImpl)
      (receiver : Option Value)

inductive Cmd where
  | atom (segments : List (List Expr))
  | op (lhs : Cmd) (o : CmdOp) (rhs : Cmd)

end

/-- `Stmt::Return` and the `Return` escape: the present `interp/mod.rs`
snapshot leaves the return statement in its `todo!()` arm and gives
`Escape::Return` no payload; the spec (sections 4.3, 4.4) specifies
`Return(value)`.  `retS` above and `Escape.ret` below are modelled from the
spec accordingly. -/
inductive Escape where
  | brk
  | cont
  | ret (v : Value)

/-- `Value::is_truthy`: everything is truthy except `Nil` and
`Bool(false)`. -/
def Value.is_truthy : Value → Bool
  | .nil => false
  | .bool false => false
  | _ => true

/-- Whether a value is a `String` (used to state index-kind claims). -/
def Value.isStr : Value → Bool
  | .str _ => true
  | _ => false

/-- Whether a value is a `Num`. -/
def Value.isNum : Value → Bool
  | .num _ => true
  | _ => false

/-! ## Machine-integer casts -/

/-- Rust `x as i32` on an integer-valued float: saturate at the `i32`
bounds. -/
def toI32 (n : Int) : Int := max (-2147483648) (min 2147483647 n)

/-- Rust `x as usize` on an integer-valued float: saturate at
`[0, usize::MAX]` (64-bit target). -/
def toUsize (n : Int) : Nat := (min 18446744073709551615 (max 0 n)).toNat

/-- `i32` wrap-around addition result (release-profile overflow
behaviour); identity on in-range values. -/
def wrap32 (n : Int) : Int := (n + 2147483648) % 4294967296 - 2147483648

/-! ## Association lists standing in for `HashMap` -/

/-- First-match lookup. -/
def alookup {α : Type} : List (String × α) → String → Option α
  | [], _ => none
  | (k', v) :: rest, k => if k' = k then some v else alookup rest k

/-- `HashMap::insert`: overwrite the key in place, else append. -/
def insertA {α : Type} (k : String) (v : α) : List (String × α) → List (String × α)
  | [] => [(k, v)]
  | (k', v') :: rest => if k' = k then (k, v) :: rest else (k', v') :: insertA k v rest

/-! ## Environment stack

`stack.rs` is not among the sources; `Stack`, `Var` and the operations
`push`/`pop`/`def`/`get`/`get_mut`/`os_env` are modelled from the spec,
section 4.2: a sequence of frames, each a name-to-`Var` mapping, searched
innermost-first (the innermost frame is the head of the list here);
`def` inserts into the innermost frame, `get`/`get_mut` fail with an
`UnboundName` error when the name is absent from every frame. -/

/-- A stack entry: a value plus the export flag (spec section 3,
`Stmt::Let` in `run_stmt`). -/
structure Var where
  val : Value
  isExp : Bool

abbrev Frame := List (String × Var)

/-- The whole interpreter state: the environment stack, the two container
heaps, the capture buffer (`Interpreter::collector`), and two logs
recording the observable traffic to the outside world (lines printed to
the process's own standard output, and commands launched connected to the
process's own streams). -/
structure InterpState where
  frames : List Frame
  vecs : List (List Value)
  dicts : List (List (String × Value))
  collector : Option String
  stdoutLog : List String
  pipedCmds : List (Cmd × List (String × String))

/-- `Stack::push`. -/
def stackPush (s : InterpState) : InterpState :=
  { s with frames := [] :: s.frames }

/-- `Stack::pop`. -/
def stackPop (s : InterpState) : InterpState :=
  { s with frames := s.frames.tail }

/-- `Stack::def`: introduce a binding in the innermost frame (insert or
overwrite, `HashMap` semantics).  The stack always holds at least the
global frame; the empty-stack arm is unreachable. -/
def stackDef (s : InterpState) (n : String) (v : Var) : InterpState :=
  match s.frames with
  | fr :: rest => { s with frames := insertA n v fr :: rest }
  | [] => { s with frames := [[(n, v)]] }

/-- `Stack::get`: resolve innermost-to-outermost. -/
def framesGet : List Frame → String → Option Var
  | [], _ => none
  | fr :: rest, n =>
    match alookup fr n with
    | some v => some v
    | none => framesGet rest n

/-- `Stack::get_mut` followed by assignment of a new `Value`: overwrite
the value (keeping the export flag) in the innermost frame holding the
name; `none` when unbound (the `UnboundName` panic). -/
def framesSetVal : List Frame → String → Value → Option (List Frame)
  | [], _, _ => none
  | fr :: rest, n, v =>
    match alookup fr n with
    | some old => some (insertA n ⟨v, old.isExp⟩ fr :: rest)
    | none => (framesSetVal rest n v).map (fr :: ·)

def stackSetVal (s : InterpState) (n : String) (v : Value) : Option InterpState :=
  (framesSetVal s.frames n v).map (fun frs => { s with frames := frs })

/-! ## Display (`impl Display for Value`, `Value::to_string_quoted`)

Containers hold heap addresses, so rendering reads the heaps and is made
total with fuel (a cyclic container would make the Rust code recurse
forever; every acyclic heap is rendered exactly with enough fuel).
A `Num` with zero fractional part renders as its integer digits, exactly
as Rust's `{}` does for such an `f64`; the shortest-decimal rendering of
non-integral floats is outside the fragment any theorem uses. -/

/-- Single-quote character (used by `to_string_quoted`). -/
def squote : String := String.singleton (Char.ofNat 39)

mutual

def displayF (s : InterpState) : Nat → Value → Option String
  | 0, _ => none
  | _ + 1, .nil => some "nil"
  | _ + 1, .num q => some (if q.den = 1 then toString q.num else toString q)
  | _ + 1, .str st => some st
  | _ + 1, .bool b => some (if b then "true" else "false")
  | f + 1, .vecV a =>
    (displayListF s f (s.vecs.getD a [])).map
      (fun parts => "[" ++ String.intercalate ", " parts ++ "]")
  | f + 1, .dictV a =>
    (displayPairsF s f (s.dicts.getD a [])).map
      (fun parts => "\x7b" ++ String.intercalate ", " parts ++ "\x7d")
  | _ + 1, .funcV (.user name _ _ _) =>
    some (match name with
          | some n => "<func " ++ n ++ ">"
          | none => "<lambda func>")
  | _ + 1, .funcV (.native n _ _ _) => some ("<native func " ++ n ++ ">")
  | _ + 1, .rangeV l r => some (toString l ++ ".." ++ toString r)

def displayQuotedF (s : InterpState) : Nat → Value → Option String
  | 0, _ => none
  | _ + 1, .str st => some (squote ++ st ++ squote)
  | f + 1, v => displayF s f v

def displayListF (s : InterpState) : Nat → List Value → Option (List String)
  | 0, _ => none
  | _ + 1, [] => some []
  | f + 1, v :: rest =>
    match displayQuotedF s f v, displayListF s f rest with
    | some d, some ds => some (d :: ds)
    | _, _ => none

def displayPairsF (s : InterpState) : Nat → List (String × Value) → Option (List String)
  | 0, _ => none
  | _ + 1, [] => some []
  | f + 1, (k, v) :: rest =>
    match displayQuotedF s f v, displayPairsF s f rest with
    | some d, some ds => some ((k ++ ": " ++ d) :: ds)
    | _, _ => none

end

/-! ## Structural equality (`#[derive(PartialEq)]` on `Value`,
`impl PartialEq for Func`)

User funcs compare by name only (`src/interp/func.rs` lines 41-49 and the
identical impl in `interp/mod.rs`); every pair involving a native func is
unequal.  Container handles compare by contents (`Rc`/`RefCell`
`PartialEq` dereference), hence the heap parameter and fuel; the claims
proved below compare only scalar and func values, where no fuel is
consumed beyond the call depth. -/

/-- `impl PartialEq for Func`. -/
def funcEq : Func → Func → Bool
  | .user n1 _ _ _, .user n2 _ _ _ => n1 = n2
  | _, _ => false

mutual

def valueEqF (s : InterpState) : Nat → Value → Value → Option Bool
  | 0, _, _ => none
  | _ + 1, .nil, .nil => some true
  | _ + 1, .num a, .num b => some (a = b)
  | _ + 1, .str a, .str b => some (a = b)
  | _ + 1, .bool a, .bool b => some (a = b)
  | f + 1, .vecV a, .vecV b => valueListEqF s f (s.vecs.getD a []) (s.vecs.getD b [])
  | f + 1, .dictV a, .dictV b =>
    let d1 := s.dicts.getD a []
    let d2 := s.dicts.getD b []
    if d1.length = d2.length then dictLeF s f d1 d2 else some false
  | _ + 1, .rangeV l1 r1, .rangeV l2 r2 => some (l1 = l2 ∧ r1 = r2)
  | _ + 1, .funcV f1, .funcV f2 => some (funcEq f1 f2)
  | _ + 1, _, _ => some false

def valueListEqF (s : InterpState) : Nat → List Value → List Value → Option Bool
  | 0, _, _ => none
  | _ + 1, [], [] => some true
  | f + 1, a :: as', b :: bs =>
    match valueEqF s f a b with
    | some true => valueListEqF s f as' bs
    | some false => some false
    | none => none
  | _ + 1, _, _ => some false

def dictLeF (s : InterpState) : Nat → List (String × Value) → List (String × Value) → Option Bool
  | 0, _, _ => none
  | _ + 1, [], _ => some true
  | f + 1, (k, v) :: rest, d2 =>
    match alookup d2 k with
    | some v2 =>
      match valueEqF s f v v2 with
      | some true => dictLeF s f rest d2
      | some false => some false
      | none => none
    | none => some false

end

/-! ## OS-environment projection and the launcher -/

/-- Fuel ample enough to render any value of an acyclic heap. -/
def envFuel (s : InterpState) : Nat :=
  s.vecs.foldl (fun a l => a + l.length) 0 +
    s.dicts.foldl (fun a l => a + l.length) 0 +
    s.vecs.length + s.dicts.length + 8

/-- `Stack::os_env`, modelled from the spec (section 4.2): the
name-to-`String` mapping of every visible binding whose export flag is
set, innermost binding winning for a shadowed name (built here by folding
outermost-to-innermost with insert-or-overwrite). -/
def os_env (s : InterpState) : List (String × String) :=
  (s.frames.reverse.foldl
      (fun acc fr =>
        fr.reverse.foldl (fun acc2 p => insertA p.1 p.2 acc2) acc)
      []).foldr
    (fun p acc =>
      if p.2.isExp then (p.1, (displayF s (envFuel s) p.2.val).getD "") :: acc
      else acc)
    []

/-- The process launcher (spec section 6), an external collaborator: given
a command tree and an environment mapping, the combined captured output of
running the command.  The evaluator is parameterised over it. -/
abbrev Launcher := Cmd → List (String × String) → String

/-- A launcher for concrete test runs: every command captures as empty
output. -/
def trivialLauncher : Launcher := fun _ _ => ""

/-- Modelled from the spec: `Interpreter::run_cmd_capture`
(`src/interp/cmd.rs`, not among the sources) runs the command with the
given environment mapping and returns its captured combined output
followed by a line break.  (Spec section 4.3: the capture buffer receives
"its captured combined output plus a trailing line break", and the
`Stmt::Cmd` handler in `interp/mod.rs` pushes the returned string into the
buffer verbatim, so the line break is produced by `run_cmd_capture`
itself.) -/
def run_cmd_capture (L : Launcher) (c : Cmd) (env : List (String × String)) : String :=
  L c env ++ "\n"

/-- Modelled from the spec: `Interpreter::run_cmd_pipe`
(`src/interp/cmd.rs`, not among the sources) runs the command connected to
the process's own standard streams; modelled by recording the launched
command and its environment in `pipedCmds`. -/
def run_cmd_pipe (c : Cmd) (env : List (String × String)) (s : InterpState) : InterpState :=
  { s with pipedCmds := s.pipedCmds ++ [(c, env)] }

/-! ## Results -/

/-- Error kinds: the spec's section-7 taxonomy, each corresponding to a
panic site in `interp/mod.rs` (or a modelled-from-spec failure where
marked).  `unreachableReached` is the `unreachable!()` arms. -/
inductive Err where
  | unboundName
  | typeMismatch
  | badIndex
  | indexOutOfBounds
  | missingKey
  | badGetTarget
  | badAssignTarget
  | rangeTypeError
  | notCallable
  | callArity
  | forRangeSecondVar
  | forNeedsSecondVar
  | strayEscape
  | unreachableReached
deriving DecidableEq

/-- Outcome of expression evaluation. -/
inductive EvalRes where
  | ok (v : Value) (s : InterpState)
  | err (e : Err)
  | timeout

/-- Outcome of evaluating an argument list. -/
inductive EvalsRes where
  | ok (vs : List Value) (s : InterpState)
  | err (e : Err)
  | timeout

/-- Outcome of evaluating the entries of a dict literal. -/
inductive PairsRes where
  | ok (kvs : List (String × Value)) (s : InterpState)
  | err (e : Err)
  | timeout

/-- Outcome of statement execution: `Result<(), Escape>` in the source,
plus the panic (`err`) and fuel (`timeout`) outcomes of the model. -/
inductive StmtRes where
  | ok (s : InterpState)
  | escape (e : Escape) (s : InterpState)
  | err (e : Err)
  | timeout

/-! ## Numeric helpers for the binary operators -/

/-- Truncation toward zero of a rational (the integer a float with that
value truncates to). -/
def ratTrunc (q : ℚ) : Int := Int.tdiv q.num q.den

/-- Rust `f64 % f64` (`fmod`): `x - trunc(x / y) * y`.  (For `y = 0` the
float result would be `NaN`; no theorem exercises that case.) -/
def ratFmod (x y : ℚ) : ℚ := x - (ratTrunc (x / y) : ℚ) * y

/-- `f64::powf` restricted to integer exponents (exact there); a
non-integral exponent is transcendental and outside the fragment any
theorem uses. -/
def ratPowF (b e : ℚ) : ℚ :=
  if e.den = 1 then (if 0 ≤ e.num then b ^ e.num.toNat else (b ^ (-e.num).toNat)⁻¹)
  else 0

/-- The result for the uniform both-`Num` binary operators
(`Sub, Mul, Div, Mod, Pow, Less, Great`; `interp/mod.rs` lines 313-331).
The remaining operators never reach this table. -/
def arithResult (op : BinaryOp) (a b : ℚ) : Value :=
  match op with
  | .sub => .num (a - b)
  | .mul => .num (a * b)
  | .div => .num (a / b)
  | .mod => .num (ratFmod a b)
  | .pow => .num (ratPowF a b)
  | .less => .bool (a < b)
  | .great => .bool (a > b)
  | _ => .nil

/-! ## The integer sequence of a `for` over a `Range`

Rust's `for i in l..r` yields `l, l+1, ...` while below `r`
(`interp/mod.rs` line 126). -/

def rangeIntsAux : Nat → Int → List Int
  | 0, _ => []
  | n + 1, l => l :: rangeIntsAux n (l + 1)

/-- The values `for i in l..r` binds, in order. -/
def rangeInts (l r : Int) : List Int := rangeIntsAux (r - l).toNat l

/-- Modelled from the spec (section 4.4): the frame a User-func call
pushes, seeded from the captured environment (if any) and then the
parameter bindings positionally assigned from the arguments. -/
def pushCallFrame (cap : Option (List (String × Value))) (ps : List String)
    (args : List Value) (s : InterpState) : InterpState :=
  let s1 := (cap.getD []).foldl (fun st p => stackDef st p.1 ⟨p.2, false⟩) (stackPush s)
  (ps.zip args).foldl (fun st p => stackDef st p.1 ⟨p.2, false⟩) s1

/-- Unquoted rendering of an argument list (`print` renders via
`Display` and joins with spaces). -/
def displayAllF (s : InterpState) : Nat → List Value → Option (List String)
  | 0, _ => none
  | _ + 1, [] => some []
  | f + 1, v :: rest =>
    match displayF s f v, displayAllF s f rest with
    | some d, some ds => some (d :: ds)
    | _, _ => none

/-- The host function behind a native `Func`.  The only registered native
is `print` (`interp/mod.rs` lines 29-40): join the rendered arguments
with spaces, then append the line (plus line break) to the capture buffer
if one is active, else print it to the process's standard output. -/
def runNative (f : Nat) (impl : NativeImpl) (args : List Value) (s : InterpState) : EvalRes :=
  match impl with
  | .print =>
    match displayAllF s f args with
    | none => .timeout
    | some parts =>
      let res := String.intercalate " " parts
      match s.collector with
      | some buf => .ok .nil { s with collector := some (buf ++ res ++ "\n") }
      | none => .ok .nil { s with stdoutLog := s.stdoutLog ++ [res] }

/-! ## The evaluator

`Interpreter::eval` and `Interpreter::run_stmt` from `src/interp/mod.rs`,
made total with fuel.  Every arm mirrors the corresponding `match` arm of
the source, in source order; the two spec-modelled arms (`retS`, the
User-func branch of `call`) are marked in place.

Faithfulness notes:

* `Stmt::Block` and the loops propagate an `Escape` with Rust's `?` /
  `res?` *before* reaching their `self.stack.pop()` call, so the frame
  they pushed stays on the stack on that path; the model reproduces this
  exactly (the `.escape` arms below return without `stackPop`).
* The `for` loops clone the body each iteration and rebind the loop
  variables through `get_mut`; over a `Vec`/`Dict` the source holds the
  `RefCell` borrow for the whole loop (a body that mutates the iterated
  container panics in Rust); the model reads the element list once before
  iterating, which agrees with the source whenever the body leaves the
  iterated container untouched, as in every theorem below. -/

mutual

def eval (L : Launcher) : Nat → Expr → InterpState → EvalRes
  | 0, _, _ => .timeout
  | f + 1, e, s =>
    match e with
    | .literal v => .ok v s
    | .vecE elems =>
      match evalList L f elems s with
      | .ok vs s1 => .ok (.vecV s1.vecs.length) { s1 with vecs := s1.vecs ++ [vs] }
      | .err er => .err er
      | .timeout => .timeout
    | .dictE pairs =>
      match evalPairs L f pairs s with
      | .ok kvs s1 =>
        .ok (.dictV s1.dicts.length)
          { s1 with dicts := s1.dicts ++ [kvs.foldl (fun m p => insertA p.1 p.2 m) []] }
      | .err er => .err er
      | .timeout => .timeout
    | .cmdE c => .ok (.str (run_cmd_capture L c (os_env s))) s
    | .get n =>
      match framesGet s.frames n with
      | some var => .ok var.val s
      | none => .err .unboundName
    | .getField base index =>
      match eval L f base s with
      | .ok bv s1 =>
        match eval L f index s1 with
        | .ok iv s2 =>
          match bv with
          | .vecV a =>
            match iv with
            | .num q =>
              if q.den = 1 then
                match (s2.vecs.getD a []).get? (toUsize q.num) with
                | some v => .ok v s2
                | none => .err .indexOutOfBounds
              else .err .badIndex
            | _ => .err .badIndex
          | .dictV a =>
            match iv with
            | .str k =>
              match alookup (s2.dicts.getD a []) k with
              | some v => .ok v s2
              | none => .err .missingKey
            | _ => .err .badIndex
          | _ => .err .badGetTarget
        | .err er => .err er
        | .timeout => .timeout
      | .err er => .err er
      | .timeout => .timeout
    | .set n rhs =>
      match eval L f rhs s with
      | .ok v s1 =>
        match stackSetVal s1 n v with
        | some s2 => .ok v s2
        | none => .err .unboundName
      | .err er => .err er
      | .timeout => .timeout
    | .setField base index valE =>
      match eval L f base s with
      | .ok bv s1 =>
        match eval L f index s1 with
        | .ok iv s2 =>
          match eval L f valE s2 with
          | .ok v s3 =>
            match bv with
            | .vecV a =>
              match iv with
              | .num q =>
                if q.den = 1 then
                  let lst := s3.vecs.getD a []
                  if toUsize q.num < lst.length then
                    .ok v { s3 with vecs := s3.vecs.set a (lst.set (toUsize q.num) v) }
                  else .err .indexOutOfBounds
                else .err .badIndex
              | _ => .err .badIndex
            | .dictV a =>
              match iv with
              | .str k =>
                .ok v { s3 with dicts := s3.dicts.set a (insertA k v (s3.dicts.getD a [])) }
              | _ => .err .badIndex
            | _ => .err .badAssignTarget
          | .err er => .err er
          | .timeout => .timeout
        | .err er => .err er
        | .timeout => .timeout
      | .err er => .err er
      | .timeout => .timeout
    | .interp strings exprs =>
      match strings with
      | [] => .err .unreachableReached
      | s0 :: rest => evalInterpF L f exprs rest s0 s
    | .rangeE le re incl =>
      match eval L f le s with
      | .ok lv s1 =>
        match eval L f re s1 with
        | .ok rv s2 =>
          match lv, rv with
          | .num lq, .num rq =>
            if lq.den = 1 && rq.den = 1 then
              .ok (.rangeV (toI32 lq.num)
                    (wrap32 (toI32 rq.num + if incl then 1 else 0))) s2
            else .err .rangeTypeError
          | _, _ => .err .rangeTypeError
        | .err er => .err er
        | .timeout => .timeout
      | .err er => .err er
      | .timeout => .timeout
    | .binary lhs .and rhs =>
      match eval L f lhs s with
      | .ok lv s1 => if lv.is_truthy then eval L f rhs s1 else .ok lv s1
      | .err er => .err er
      | .timeout => .timeout
    | .binary lhs .or rhs =>
      match eval L f lhs s with
      | .ok lv s1 => if lv.is_truthy then .ok lv s1 else eval L f rhs s1
      | .err er => .err er
      | .timeout => .timeout
    | .binary lhs .equal rhs =>
      match eval L f lhs s with
      | .ok lv s1 =>
        match eval L f rhs s1 with
        | .ok rv s2 =>
          match valueEqF s2 (f + 1) lv rv with
          | some b => .ok (.bool b) s2
          | none => .timeout
        | .err er => .err er
        | .timeout => .timeout
      | .err er => .err er
      | .timeout => .timeout
    | .binary lhs .sum rhs =>
      match eval L f lhs s with
      | .ok lv s1 =>
        match eval L f rhs s1 with
        | .ok rv s2 =>
          match lv, rv with
          | .num a, .num b => .ok (.num (a + b)) s2
          | .str a, .str b => .ok (.str (a ++ b)) s2
          | _, _ => .err .typeMismatch
        | .err er => .err er
        | .timeout => .timeout
      | .err er => .err er
      | .timeout => .timeout
    | .binary lhs op rhs =>
      match eval L f lhs s with
      | .ok lv s1 =>
        match eval L f rhs s1 with
        | .ok rv s2 =>
          match lv, rv with
          | .num a, .num b => .ok (arithResult op a b) s2
          | _, _ => .err .typeMismatch
        | .err er => .err er
        | .timeout => .timeout
      | .err er => .err er
      | .timeout => .timeout
    | .unary .not e1 =>
      match eval L f e1 s with
      | .ok v s1 => .ok (.bool (!v.is_truthy)) s1
      | .err er => .err er
      | .timeout => .timeout
    | .unary .neg e1 =>
      match eval L f e1 s with
      | .ok v s1 =>
        match v with
        | .num q => .ok (.num (-q)) s1
        | _ => .err .typeMismatch
      | .err er => .err er
      | .timeout => .timeout
    | .unary _ _ => .err .unreachableReached
    | .call funcE argEs =>
      match eval L f funcE s with
      | .ok fv s1 =>
        match evalList L f argEs s1 with
        | .ok args s2 =>
          match fv with
          | .funcV (.user _ ps body cap) =>
            -- Modelled from the spec (section 4.4): the User-func branch of
            -- `Call` is absent from the `interp/mod.rs` snapshot (only its
            -- `Func` declaration, `src/interp/func.rs`, is among the
            -- sources): arity mismatch is a CallArityError; otherwise push
            -- a frame seeded from the captured environment plus the
            -- positional parameter bindings, run the body, turn a
            -- `Return(v)` escape into the value `v`, and yield `Nil` when
            -- the body falls off the end.
            if args.length = ps.length then
              match run_stmt L f body (pushCallFrame cap ps args s2) with
              | .ok s3 => .ok .nil (stackPop s3)
              | .escape (.ret v) s3 => .ok v (stackPop s3)
              | .escape .brk _ => .err .strayEscape
              | .escape .cont _ => .err .strayEscape
              | .err er => .err er
              | .timeout => .timeout
            else .err .callArity
          | .funcV (.native _ pn impl recv) =>
            -- Arity checked against the declared fixed arity if present,
            -- the bound receiver (if any) prepended to the arguments
            -- (spec sections 3 and 4.4).
            let args2 := match recv with
                         | some rcv => rcv :: args
                         | none => args
            if (pn.map (fun n => n == args2.length)).getD true then
              runNative f impl args2 s2
            else .err .callArity
          | _ => .err .notCallable
        | .err er => .err er
        | .timeout => .timeout
      | .err er => .err er
      | .timeout => .timeout

def evalList (L : Launcher) : Nat → List Expr → InterpState → EvalsRes
  | 0, _, _ => .timeout
  | _ + 1, [], s => .ok [] s
  | f + 1, e :: es, s =>
    match eval L f e s with
    | .ok v s1 =>
      match evalList L f es s1 with
      | .ok vs s2 => .ok (v :: vs) s2
      | .err er => .err er
      | .timeout => .timeout
    | .err er => .err er
    | .timeout => .timeout

def evalPairs (L : Launcher) : Nat → List (String × Expr) → InterpState → PairsRes
  | 0, _, _ => .timeout
  | _ + 1, [], s => .ok [] s
  | f + 1, (k, e) :: rest, s =>
    match eval L f e s with
    | .ok v s1 =>
      match evalPairs L f rest s1 with
      | .ok kvs s2 => .ok ((k, v) :: kvs) s2
      | .err er => .err er
      | .timeout => .timeout
    | .err er => .err er
    | .timeout => .timeout

def evalInterpF (L : Launcher) :
    Nat → List Expr → List String → String → InterpState → EvalRes
  | 0, _, _, _, _ => .timeout
  | _ + 1, [], _, acc, s => .ok (.str acc) s
  | f + 1, e :: es, strs, acc, s =>
    match eval L f e s with
    | .ok v s1 =>
      match displayF s1 (f + 1) v with
      | some d =>
        match strs with
        | nx :: rest => evalInterpF L f es rest (acc ++ d ++ nx) s1
        | [] => .err .unreachableReached
      | none => .timeout
    | .err er => .err er
    | .timeout => .timeout

def run_stmt (L : Launcher) : Nat → Stmt → InterpState → StmtRes
  | 0, _, _ => .timeout
  | f + 1, st, s =>
    match st with
    | .cmd c =>
      let env := os_env s
      match s.collector with
      | some buf => .ok { s with collector := some (buf ++ run_cmd_capture L c env) }
      | none => .ok (run_cmd_pipe c env s)
    | .letS n init isExp =>
      match init with
      | some e =>
        match eval L f e s with
        | .ok v s1 => .ok (stackDef s1 n ⟨v, isExp⟩)
        | .err er => .err er
        | .timeout => .timeout
      | none => .ok (stackDef s n ⟨.nil, isExp⟩)
    | .exprS e =>
      match eval L f e s with
      | .ok _ s1 => .ok s1
      | .err er => .err er
      | .timeout => .timeout
    | .block stmts =>
      match runStmts L f stmts (stackPush s) with
      | .ok s1 => .ok (stackPop s1)
      | .escape esc s1 => .escape esc s1
      | .err er => .err er
      | .timeout => .timeout
    | .forS lvar rvar iterated eachDo =>
      match eval L f iterated s with
      | .ok it s1 =>
        match it with
        | .rangeV l r =>
          match rvar with
          | some _ => .err .forRangeSecondVar
          | none =>
            let s2 := stackDef (stackPush s1) lvar ⟨.num (l : ℚ), false⟩
            match forIter L f
                ((rangeInts l r).map (fun i st => stackSetVal st lvar (.num (i : ℚ))))
                eachDo s2 with
            | .ok s3 => .ok (stackPop s3)
            | .escape esc s3 => .escape esc s3
            | .err er => .err er
            | .timeout => .timeout
        | .vecV a =>
          match rvar with
          | none => .err .forNeedsSecondVar
          | some rv =>
            let s2 := stackDef (stackDef (stackPush s1) lvar ⟨.nil, false⟩) rv ⟨.nil, false⟩
            match forIter L f
                ((s1.vecs.getD a []).enum.map
                  (fun p st =>
                    (stackSetVal st lvar (.num (p.1 : ℚ))).bind
                      (fun st2 => stackSetVal st2 rv p.2)))
                eachDo s2 with
            | .ok s3 => .ok (stackPop s3)
            | .escape esc s3 => .escape esc s3
            | .err er => .err er
            | .timeout => .timeout
        | .dictV a =>
          match rvar with
          | none => .err .forNeedsSecondVar
          | some rv =>
            let s2 := stackDef (stackDef (stackPush s1) lvar ⟨.nil, false⟩) rv ⟨.nil, false⟩
            match forIter L f
                ((s1.dicts.getD a []).map
                  (fun p st =>
                    (stackSetVal st lvar (.str p.1)).bind
                      (fun st2 => stackSetVal st2 rv p.2)))
                eachDo s2 with
            | .ok s3 => .ok (stackPop s3)
            | .escape esc s3 => .escape esc s3
            | .err er => .err er
            | .timeout => .timeout
        | _ => .err .unreachableReached
      | .err er => .err er
      | .timeout => .timeout
    | .whileS cond thenDo =>
      match eval L f cond s with
      | .ok v s1 =>
        if v.is_truthy then
          match run_stmt L f thenDo s1 with
          | .ok s2 => run_stmt L f (.whileS cond thenDo) s2
          | .escape .cont s2 => run_stmt L f (.whileS cond thenDo) s2
          | .escape .brk s2 => .ok s2
          | .escape esc s2 => .escape esc s2
          | .err er => .err er
          | .timeout => .timeout
        else .ok s1
      | .err er => .err er
      | .timeout => .timeout
    | .ifS cond thenDo elseDo =>
      match eval L f cond s with
      | .ok v s1 =>
        if v.is_truthy then run_stmt L f thenDo s1
        else
          match elseDo with
          | some els => run_stmt L f els s1
          | none => .ok s1
      | .err er => .err er
      | .timeout => .timeout
    | .continueS => .escape .cont s
    | .breakS => .escape .brk s
    | .retS e =>
      -- Modelled from the spec (sections 4.3, 4.4): a return statement
      -- yields a `Return(value)` escape (the `interp/mod.rs` snapshot
      -- leaves this statement in its `todo!()` arm).
      match e with
      | some ex =>
        match eval L f ex s with
        | .ok v s1 => .escape (.ret v) s1
        | .err er => .err er
        | .timeout => .timeout
      | none => .escape (.ret .nil) s

def runStmts (L : Launcher) : Nat → List Stmt → InterpState → StmtRes
  | 0, _, _ => .timeout
  | _ + 1, [], s => .ok s
  | f + 1, st :: rest, s =>
    match run_stmt L f st s with
    | .ok s1 => runStmts L f rest s1
    | .escape esc s1 => .escape esc s1
    | .err er => .err er
    | .timeout => .timeout

def forIter (L : Launcher) :
    Nat → List (InterpState → Option InterpState) → Stmt → InterpState → StmtRes
  | 0, _, _, _ => .timeout
  | _ + 1, [], _, s => .ok s
  | f + 1, upd :: rest, body, s =>
    match upd s with
    | none => .err .unboundName
    | some s1 =>
      match run_stmt L f body s1 with
      | .ok s2 => forIter L f rest body s2
      | .escape .cont s2 => forIter L f rest body s2
      | .escape .brk s2 => .ok s2
      | .escape esc s2 => .escape esc s2
      | .err er => .err er
      | .timeout => .timeout

end

/-! ## Interpreter construction (`Interpreter::new`)

A fresh stack with one global frame, the native `print` registered
(`init_native_funcs`; the snapshot constructs it without a fixed arity or
receiver), then every inherited OS environment variable imported as a
String-valued, non-exported binding (`import_os_env`; the ambient
variables are a parameter here). -/

def initState (osVars : List (String × String)) : InterpState :=
  let s0 : InterpState :=
    { frames := [[]], vecs := [], dicts := [], collector := none,
      stdoutLog := [], pipedCmds := [] }
  let s1 := stackDef s0 "print" ⟨.funcV (.native "print" none .print none), false⟩
  osVars.foldl (fun st p => stackDef st p.1 ⟨.str p.2, false⟩) s1

/-- `Interpreter::do_collect`: activate the capture buffer. -/
def doCollect (s : InterpState) : InterpState := { s with collector := some "" }

/-! ## The command parser (`src/parser/cmd.rs`)

The parser consumes a peekable token stream, modelled as a list.  The
token kinds below are the ones `parse_cmd` itself distinguishes: the
eleven command operators, whitespace, and plain word tokens (the
catch-all `t => Expr::Literal(Value::String(t.lexeme))` arm).  Tokens of
kind `String` and `LeftBrace` hand off to the external expression parser
(`continue_parse_string_expr` / `parse_expression`, outside the command
parser's sources and outside every claim about it); streams containing
them are out of scope here. -/

inductive TokenKind where
  | space | newline
  | pipe | starPipe | amperPipe
  | great | starGreat | amperGreat
  | less | starLess | amperLess
  | amperAmper | pipePipe
  | word
deriving DecidableEq

structure Token where
  kind : TokenKind
  lexeme : String

/-- The fixed binding-power table (`parser/cmd.rs` lines 105-119):
redirections (7,8), pipes (5,6), logical AND (3,4), logical OR (1,2);
`None` for every non-operator token. -/
def binding_power : TokenKind → Option (Nat × Nat)
  | .great | .starGreat | .amperGreat => some (7, 8)
  | .less | .starLess | .amperLess => some (7, 8)
  | .pipe | .starPipe | .amperPipe => some (5, 6)
  | .amperAmper => some (3, 4)
  | .pipePipe => some (1, 2)
  | _ => none

/-- `Token::is_cmd_op`. -/
def isCmdOp (k : TokenKind) : Bool := (binding_power k).isSome

/-- The operator-token-to-`CmdOp` mapping (`parse_cmd` lines 79-96).  The
final arm is `unreachable!()` in the source — only operator kinds reach
it. -/
def opOf : TokenKind → CmdOp
  | .pipePipe => .orC
  | .amperAmper => .andC
  | .pipe => .outPipe
  | .starPipe => .errPipe
  | .amperPipe => .allPipe
  | .great => .outWrite
  | .starGreat => .errWrite
  | .amperGreat => .allWrite
  | .less => .outRead
  | .starLess => .errRead
  | .amperLess => .allRead
  | _ => .orC

/-- The inner word-segment loop: collect expressions until the stream
ends or a command operator, space or newline is next. -/
def parseSegExprs : List Token → List Expr × List Token
  | [] => ([], [])
  | t :: rest =>
    if isCmdOp t.kind || t.kind = .space || t.kind = .newline then ([], t :: rest)
    else
      let (es, rest1) := parseSegExprs rest
      (Expr.literal (.str t.lexeme) :: es, rest1)

/-- The outer segment loop of the `Atom`: collect word segments (dropping
empty ones), consuming a single separating space token between
segments. -/
def parseAtom : Nat → List Token → List (List Expr) × List Token
  | 0, toks => ([], toks)
  | f + 1, toks =>
    let (exprs, rest) := parseSegExprs toks
    let segs := if exprs.length > 0 then [exprs] else []
    match rest with
    | t :: rest1 =>
      if t.kind = .space then
        let (more, rest2) := parseAtom f rest1
        (segs ++ more, rest2)
      else (segs, t :: rest1)
    | [] => (segs, [])

mutual

/-- `Parser::parse_cmd`: parse one `Atom`, then climb operators of
sufficient left binding power, recursing on the right-hand side with the
operator's right binding power. -/
def parse_cmd : Nat → Nat → List Token → Cmd × List Token
  | 0, _, toks => (Cmd.atom [], toks)
  | f + 1, minBp, toks =>
    let (segs, rest) := parseAtom (f + 1) toks
    parseOps f minBp (Cmd.atom segs) rest

/-- The operator-climbing loop of `parse_cmd`. -/
def parseOps : Nat → Nat → Cmd → List Token → Cmd × List Token
  | 0, _, lhs, toks => (lhs, toks)
  | _ + 1, _, lhs, [] => (lhs, [])
  | f + 1, minBp, lhs, t :: rest =>
    match binding_power t.kind with
    | some (lbp, rbp) =>
      if lbp < minBp then (lhs, t :: rest)
      else
        let (rhs, rest1) := parse_cmd f rbp rest
        parseOps f minBp (Cmd.op lhs (opOf t.kind) rhs) rest1
    | none => (lhs, t :: rest)

end

/-! ## Supporting lemmas -/

theorem alookup_insertA {α : Type} (k : String) (v : α) :
    ∀ l : List (String × α), alookup (insertA k v l) k = some v := by
  intro l
  induction l with
  | nil => simp [insertA, alookup]
  | cons h t ih =>
    by_cases hk : h.1 = k
    · simp [insertA, hk, alookup]
    · simp [insertA, hk, alookup, ih]

theorem toI32_eq (n : Int) (h1 : -2147483648 ≤ n) (h2 : n ≤ 2147483647) : toI32 n = n := by
  unfold toI32; omega

theorem wrap32_eq (n : Int) (h1 : -2147483648 ≤ n) (h2 : n ≤ 2147483647) : wrap32 n = n := by
  unfold wrap32; omega

theorem toUsize_neg (n : Int) (h : n < 0) : toUsize n = 0 := by
  unfold toUsize; omega

theorem rangeIntsAux_length (n : Nat) : ∀ l : Int, (rangeIntsAux n l).length = n := by
  induction n with
  | zero => intro l; rfl
  | succ n ih => intro l; simp [rangeIntsAux, ih]

theorem rangeIntsAux_getD (n : Nat) :
    ∀ (l : Int) (i : Nat), i < n → (rangeIntsAux n l).getD i 0 = l + i := by
  induction n with
  | zero => intro l i h; omega
  | succ n ih =>
    intro l i h
    match i with
    | 0 => simp [rangeIntsAux]
    | j + 1 =>
      have hj : j < n := by omega
      simp only [rangeIntsAux, List.getD_cons_succ, ih (l + 1) j hj]
      push_cast
      ring

/-! ## The claims -/

/-- C1: the claim states that every frame pushed by statement execution is
popped on every exit path — in particular that a `Block` pops its frame
when an Escape propagates out of a child, so that stack depth is restored
even when `run_stmt` returns an Escape.  The code does not do this: in the
`Stmt::Block` arm the child's Escape propagates through `?` *before*
`self.stack.pop()` is reached, so the frame stays.  First conjunct:
running `Block([Break])` returns the `Break` escape with the stack one
frame deeper than before.  Remaining conjuncts: inside
`While(true, Block([Break]))` the loop catches the `Break` and finishes
normally, yet the leaked frame is permanent — the final depth is one more
than the initial depth. -/
theorem c1_frames_leak_on_escape :
    (run_stmt trivialLauncher 4 (.block [.breakS]) (initState []) =
        .escape .brk (stackPush (initState []))
      ∧ (stackPush (initState [])).frames.length = (initState []).frames.length + 1)
    ∧ run_stmt trivialLauncher 8
        (.whileS (.literal (.bool true)) (.block [.breakS])) (initState []) =
        .ok (stackPush (initState [])) :=
  ⟨⟨rfl, rfl⟩, rfl⟩

/-- C2: a `Call` whose callee evaluates to a User func checks the arity of
the evaluated argument list against the parameter list (mismatch is a
`CallArityError`), runs the body in a fresh frame seeded from the captured
environment plus the positional parameter bindings (`pushCallFrame`),
converts a `Return(v)` escape into the value `v`, and yields `Nil` when
the body falls off the end — the result equation below exposes all three
outcomes of the body. -/
theorem c2_user_call (L : Launcher) (f : Nat) (funcE : Expr) (argEs : List Expr)
    (s s1 s2 : InterpState) (nm : Option String) (ps : List String) (body : Stmt)
    (cap : Option (List (String × Value))) (args : List Value)
    (h1 : eval L f funcE s = .ok (.funcV (.user nm ps body cap)) s1)
    (h2 : evalList L f argEs s1 = .ok args s2) :
    (args.length ≠ ps.length → eval L (f + 1) (.call funcE argEs) s = .err .callArity)
    ∧ (args.length = ps.length →
        eval L (f + 1) (.call funcE argEs) s =
          match run_stmt L f body (pushCallFrame cap ps args s2) with
          | .ok s3 => .ok .nil (stackPop s3)
          | .escape (.ret v) s3 => .ok v (stackPop s3)
          | .escape .brk _ => .err .strayEscape
          | .escape .cont _ => .err .strayEscape
          | .err er => .err er
          | .timeout => .timeout) := by
  constructor <;> intro h <;> simp only [eval, h1, h2] <;> simp [h]

/-- C2 witness: calling an anonymous single-parameter func whose body
reads both its parameter `x` (bound to the argument `3`) and its captured
variable `y` (bound to `7` in the captured environment) and returns the
latter; the call yields `7` and restores the state. -/
theorem c2_user_call_witness :
    eval trivialLauncher 11
      (.call (.literal (.funcV (.user none ["x"]
          (.ifS (.get "x") (.retS (some (.get "y"))) none)
          (some [("y", .num 7)]))))
        [.literal (.num 3)])
      (initState []) = .ok (.num 7) (initState []) :=
  ((c2_user_call trivialLauncher 10
      (.literal (.funcV (.user none ["x"]
          (.ifS (.get "x") (.retS (some (.get "y"))) none)
          (some [("y", .num 7)]))))
      [.literal (.num 3)]
      (initState []) (initState []) (initState [])
      none ["x"]
      (.ifS (.get "x") (.retS (some (.get "y"))) none)
      (some [("y", .num 7)]) [.num 3] rfl rfl).2 rfl).trans rfl

/-- C3 counterexample: the claim states that evaluating `Equal` on two
anonymous User funcs yields `false`.  It does not: `Func` equality
compares the optional names, and `None == None` holds, so two distinct
anonymous funcs (different parameter lists and bodies here) compare
`Equal` to `true`. -/
theorem c3_anon_funcs_equal_cex :
    eval trivialLauncher 3
      (.binary (.literal (.funcV (.user none [] (.block []) none))) .equal
               (.literal (.funcV (.user none ["a"] .continueS none))))
      (initState []) = .ok (.bool true) (initState []) := rfl

/-- C3 amended: evaluating `Equal` on two User funcs compares exactly
their optional names — so two anonymous User funcs compare equal — and
any pair involving a Native func (native/native, user/native,
native/user) yields `false`. -/
theorem c3_func_equality_amended (L : Launcher) (f : Nat) (s : InterpState)
    (n1 n2 : Option String) (p1 p2 : List String) (b1 b2 : Stmt)
    (c1 c2 : Option (List (String × Value)))
    (nn1 nn2 : String) (pn1 pn2 : Option Nat) (i1 i2 : NativeImpl)
    (r1 r2 : Option Value) :
    (eval L (f + 2) (.binary (.literal (.funcV (.user n1 p1 b1 c1))) .equal
        (.literal (.funcV (.user n2 p2 b2 c2)))) s = .ok (.bool (decide (n1 = n2))) s)
    ∧ (eval L (f + 2) (.binary (.literal (.funcV (.native nn1 pn1 i1 r1))) .equal
        (.literal (.funcV (.native nn2 pn2 i2 r2)))) s = .ok (.bool false) s)
    ∧ (eval L (f + 2) (.binary (.literal (.funcV (.user n1 p1 b1 c1))) .equal
        (.literal (.funcV (.native nn2 pn2 i2 r2)))) s = .ok (.bool false) s)
    ∧ (eval L (f + 2) (.binary (.literal (.funcV (.native nn1 pn1 i1 r1))) .equal
        (.literal (.funcV (.user n2 p2 b2 c2)))) s = .ok (.bool false) s) :=
  ⟨rfl, rfl, rfl, rfl⟩

/-- C4 counterexample: the claim quantifies over all integer-valued
bounds, but the `as i32` cast saturates: `Range(0, 2^31, false)` stores
the right bound `2^31 - 1`, so the constructed interval is not
`[0, 2^31)`; and `Range(0, 2^31 - 1, true)` wraps the folded `r+1` to
`-2^31`, iterating nothing instead of `2^31` values. -/
theorem c4_range_saturation_cex :
    (eval trivialLauncher 3
        (.rangeE (.literal (.num 0)) (.literal (.num 2147483648)) false)
        (initState []) = .ok (.rangeV 0 2147483647) (initState [])
      ∧ (2147483647 : Int) ≠ 2147483648)
    ∧ (eval trivialLauncher 3
        (.rangeE (.literal (.num 0)) (.literal (.num 2147483647)) true)
        (initState []) = .ok (.rangeV 0 (-2147483648)) (initState [])
      ∧ rangeInts 0 (-2147483648) = []) :=
  ⟨⟨rfl, by decide⟩, ⟨rfl, rfl⟩⟩

/-- C4 amended: for integer-valued bounds within the `i32` range,
`Range(l, r, false)` yields the half-open interval `[l, r)` and
`Range(l, r, true)` folds `r+1` in at construction (provided `r+1` is
still in range); construction fails with `RangeTypeError` when either
bound is a non-integer `Num` or not a `Num` at all; the value sequence a
`For` over `Range(l, r)` binds is `rangeInts l r`, which has exactly
`(r-l).toNat` elements, the `i`-th being `l + i` (so `l, l+1, …, r-1`
ascending); and a concrete end-to-end run `for i in 2..6 { print(i) }`
captures `2, 3, 4, 5` in order. -/
theorem c4_range_semantics_amended (L : Launcher) (f : Nat) (s : InterpState)
    (l r : Int) (hl1 : -2147483648 ≤ l) (hl2 : l ≤ 2147483647)
    (hr1 : -2147483648 ≤ r) (hr2 : r ≤ 2147483647) :
    eval L (f + 2) (.rangeE (.literal (.num (l : ℚ))) (.literal (.num (r : ℚ))) false) s
        = .ok (.rangeV l r) s
    ∧ (r ≤ 2147483646 →
        eval L (f + 2) (.rangeE (.literal (.num (l : ℚ))) (.literal (.num (r : ℚ))) true) s
          = .ok (.rangeV l (r + 1)) s)
    ∧ (∀ q : ℚ, q.den ≠ 1 →
        eval L (f + 2) (.rangeE (.literal (.num q)) (.literal (.num (r : ℚ))) false) s
          = .err .rangeTypeError
        ∧ eval L (f + 2) (.rangeE (.literal (.num (l : ℚ))) (.literal (.num q)) false) s
          = .err .rangeTypeError)
    ∧ (∀ v : Value, v.isNum = false →
        eval L (f + 2) (.rangeE (.literal v) (.literal (.num (r : ℚ))) false) s
          = .err .rangeTypeError)
    ∧ (rangeInts l r).length = (r - l).toNat
    ∧ (∀ i : Nat, i < (r - l).toNat → (rangeInts l r).getD i 0 = l + i)
    ∧ (∀ (lvar : String) (body : Stmt),
        run_stmt L (f + 2) (.forS lvar none (.literal (.rangeV l r)) body) s =
          match forIter L (f + 1)
              ((rangeInts l r).map (fun i st => stackSetVal st lvar (.num (i : ℚ))))
              body (stackDef (stackPush s) lvar ⟨.num (l : ℚ), false⟩) with
          | .ok s3 => .ok (stackPop s3)
          | .escape esc s3 => .escape esc s3
          | .err er => .err er
          | .timeout => .timeout)
    ∧ run_stmt trivialLauncher 30
        (.forS "i" none (.rangeE (.literal (.num 2)) (.literal (.num 6)) false)
          (.exprS (.call (.get "print") [.get "i"])))
        (doCollect (initState [])) =
        .ok { doCollect (initState []) with collector := some "2\n3\n4\n5\n" } := by
  refine ⟨?_, ?_, ?_, ?_, rangeIntsAux_length _ _, fun i h => rangeIntsAux_getD _ _ i h,
    fun lvar body => rfl, rfl⟩
  · show EvalRes.ok (.rangeV (toI32 l) (wrap32 (toI32 r + 0))) s = _
    rw [toI32_eq l hl1 hl2, toI32_eq r hr1 hr2, Int.add_zero, wrap32_eq r hr1 hr2]
  · intro hr3
    show EvalRes.ok (.rangeV (toI32 l) (wrap32 (toI32 r + 1))) s = _
    rw [toI32_eq l hl1 hl2, toI32_eq r hr1 hr2, wrap32_eq (r + 1) (by omega) (by omega)]
  · intro q hq
    constructor <;> · simp only [eval, Rat.den_intCast]; simp [hq]
  · intro v hv
    cases v <;> simp_all [eval, Value.isNum]

/-- C4 witness: `0..3` constructs `Range(0, 3)`. -/
theorem c4_range_semantics_witness :
    eval trivialLauncher 2
      (.rangeE (.literal (.num ((0 : Int) : ℚ))) (.literal (.num ((3 : Int) : ℚ))) false)
      (initState []) = .ok (.rangeV 0 3) (initState []) :=
  (c4_range_semantics_amended trivialLauncher 0 (initState []) 0 3
      (by decide) (by decide) (by decide) (by decide)).1

/-- C5: `And` evaluates the right operand only when the left value is
truthy and `Or` only when it is falsy; the result is the raw value of the
deciding side.  When the left side decides, the result is the left value
and state exactly as the left operand produced them — the right operand's
evaluation (and any side effect of it) never happens; otherwise the
result is exactly the evaluation of the right operand. -/
theorem c5_short_circuit (L : Launcher) (f : Nat) (lhs rhs : Expr)
    (s s1 : InterpState) (v : Value) :
    (eval L f lhs s = .ok v s1 → v.is_truthy = false →
        eval L (f + 1) (.binary lhs .and rhs) s = .ok v s1)
    ∧ (eval L f lhs s = .ok v s1 → v.is_truthy = true →
        eval L (f + 1) (.binary lhs .and rhs) s = eval L f rhs s1)
    ∧ (eval L f lhs s = .ok v s1 → v.is_truthy = true →
        eval L (f + 1) (.binary lhs .or rhs) s = .ok v s1)
    ∧ (eval L f lhs s = .ok v s1 → v.is_truthy = false →
        eval L (f + 1) (.binary lhs .or rhs) s = eval L f rhs s1) := by
  refine ⟨?_, ?_, ?_, ?_⟩ <;> intro h1 h2 <;> simp only [eval, h1, h2] <;> rfl

/-- C5 witness: `false && (q = "boom")` yields `false` with the state
untouched; the assignment to the unbound name `q` — which would fail with
an `UnboundName` error if evaluated — never runs. -/
theorem c5_short_circuit_witness :
    eval trivialLauncher 3
      (.binary (.literal (.bool false)) .and (.set "q" (.literal (.str "boom"))))
      (initState []) = .ok (.bool false) (initState []) :=
  (c5_short_circuit trivialLauncher 2 (.literal (.bool false))
      (.set "q" (.literal (.str "boom"))) (initState []) (initState [])
      (.bool false)).1 rfl rfl

/-- C6: the binding-power table is exactly redirections `(7,8)`, pipes
`(5,6)`, logical AND `(3,4)`, logical OR `(1,2)` (and no power for
non-operator tokens), and the parser groups accordingly:
`a | b && c > f` parses as `(a | b) && (c > f)`, `a && b || c` as
`(a && b) || c`, and `a | b | c` as `(a | b) | c` (left-associative). -/
theorem c6_cmd_operator_precedence :
    (binding_power .great = some (7, 8) ∧ binding_power .starGreat = some (7, 8)
      ∧ binding_power .amperGreat = some (7, 8)
      ∧ binding_power .less = some (7, 8) ∧ binding_power .starLess = some (7, 8)
      ∧ binding_power .amperLess = some (7, 8)
      ∧ binding_power .pipe = some (5, 6) ∧ binding_power .starPipe = some (5, 6)
      ∧ binding_power .amperPipe = some (5, 6)
      ∧ binding_power .amperAmper = some (3, 4) ∧ binding_power .pipePipe = some (1, 2)
      ∧ binding_power .word = none ∧ binding_power .space = none
      ∧ binding_power .newline = none)
    ∧ parse_cmd 20 0
        [⟨.word, "a"⟩, ⟨.space, " "⟩, ⟨.pipe, "|"⟩, ⟨.space, " "⟩, ⟨.word, "b"⟩,
         ⟨.space, " "⟩, ⟨.amperAmper, "&&"⟩, ⟨.space, " "⟩, ⟨.word, "c"⟩,
         ⟨.space, " "⟩, ⟨.great, ">"⟩, ⟨.space, " "⟩, ⟨.word, "f"⟩] =
        (Cmd.op
          (Cmd.op (.atom [[.literal (.str "a")]]) .outPipe (.atom [[.literal (.str "b")]]))
          .andC
          (Cmd.op (.atom [[.literal (.str "c")]]) .outWrite (.atom [[.literal (.str "f")]])),
         [])
    ∧ parse_cmd 20 0
        [⟨.word, "a"⟩, ⟨.space, " "⟩, ⟨.amperAmper, "&&"⟩, ⟨.space, " "⟩, ⟨.word, "b"⟩,
         ⟨.space, " "⟩, ⟨.pipePipe, "||"⟩, ⟨.space, " "⟩, ⟨.word, "c"⟩] =
        (Cmd.op
          (Cmd.op (.atom [[.literal (.str "a")]]) .andC (.atom [[.literal (.str "b")]]))
          .orC (.atom [[.literal (.str "c")]]),
         [])
    ∧ parse_cmd 20 0
        [⟨.word, "a"⟩, ⟨.space, " "⟩, ⟨.pipe, "|"⟩, ⟨.space, " "⟩, ⟨.word, "b"⟩,
         ⟨.space, " "⟩, ⟨.pipe, "|"⟩, ⟨.space, " "⟩, ⟨.word, "c"⟩] =
        (Cmd.op
          (Cmd.op (.atom [[.literal (.str "a")]]) .outPipe (.atom [[.literal (.str "b")]]))
          .outPipe (.atom [[.literal (.str "c")]]),
         []) :=
  ⟨⟨rfl, rfl, rfl, rfl, rfl, rfl, rfl, rfl, rfl, rfl, rfl, rfl, rfl, rfl⟩, rfl, rfl, rfl⟩

/-- C7: executing a `Cmd` statement with the capture buffer active
appends the command's captured combined output plus a trailing line break
to the buffer and changes nothing else (in particular nothing reaches the
process's own standard streams); with no buffer active the command is run
connected to the process's own streams and the buffer stays absent. -/
theorem c7_cmd_capture (L : Launcher) (f : Nat) (c : Cmd) (s : InterpState) (buf : String) :
    (s.collector = some buf →
        run_stmt L (f + 1) (.cmd c) s =
          .ok { s with collector := some (buf ++ run_cmd_capture L c (os_env s)) })
    ∧ (s.collector = none →
        run_stmt L (f + 1) (.cmd c) s =
          .ok { s with pipedCmds := s.pipedCmds ++ [(c, os_env s)] })
    ∧ run_cmd_capture L c (os_env s) = L c (os_env s) ++ "\n" := by
  refine ⟨?_, ?_, rfl⟩ <;> intro h <;> simp only [run_stmt, h, run_cmd_pipe]

/-- C7 witness: with collection active, a command whose captured output is
empty leaves exactly a line break in the buffer. -/
theorem c7_cmd_capture_witness :
    run_stmt trivialLauncher 1 (.cmd (.atom [])) (doCollect (initState [])) =
      .ok { doCollect (initState []) with collector := some "\n" } :=
  ((c7_cmd_capture trivialLauncher 0 (.atom []) (doCollect (initState [])) "").1 rfl).trans
    rfl

/-- C8: on a Dict, `GetField` with a key that is absent fails with
`MissingKey` (never `Nil`), `GetField` with a non-String index fails with
`BadIndex`, and after `SetField(d, k, x)` — which insert-or-overwrites
the key in the shared heap cell — `GetField(d, k)` returns `x`. -/
theorem c8_dict_semantics (L : Launcher) (f : Nat) (s : InterpState) (a : Nat)
    (k : String) (x iv : Value) (ha : a < s.dicts.length) :
    (alookup (s.dicts.getD a []) k = none →
        eval L (f + 2) (.getField (.literal (.dictV a)) (.literal (.str k))) s =
          .err .missingKey)
    ∧ (iv.isStr = false →
        eval L (f + 2) (.getField (.literal (.dictV a)) (.literal iv)) s = .err .badIndex)
    ∧ eval L (f + 2) (.setField (.literal (.dictV a)) (.literal (.str k)) (.literal x)) s
        = .ok x { s with dicts := s.dicts.set a (insertA k x (s.dicts.getD a [])) }
    ∧ eval L (f + 2) (.getField (.literal (.dictV a)) (.literal (.str k)))
        { s with dicts := s.dicts.set a (insertA k x (s.dicts.getD a [])) }
        = .ok x { s with dicts := s.dicts.set a (insertA k x (s.dicts.getD a [])) } := by
  refine ⟨?_, ?_, rfl, ?_⟩
  · intro h; simp only [eval, h]
  · intro h; cases iv <;> simp_all [eval, Value.isStr]
  · have hset : (s.dicts.set a (insertA k x (s.dicts.getD a []))).getD a [] =
        insertA k x (s.dicts.getD a []) := by
      rw [List.getD_eq_getElem?_getD, List.getElem?_set_self (by simpa using ha)]
      rfl
    simp only [eval, hset, alookup_insertA]

/-- C8 witness: on a one-entry dict, looking up an absent key fails with
`MissingKey` (first conjunct of the theorem, at a concrete heap). -/
theorem c8_dict_semantics_witness :
    eval trivialLauncher 2 (.getField (.literal (.dictV 0)) (.literal (.str "b")))
      { initState [] with dicts := [[("a", .num 1)]] } = .err .missingKey :=
  (c8_dict_semantics trivialLauncher 0
      { initState [] with dicts := [[("a", .num 1)]] } 0 "b" .nil .nil
      (by decide)).1 rfl

/-- C9: a negative integer-valued `Num` index into a non-empty Vec is not
rejected: the `as usize` conversion saturates at zero, so `GetField`
returns element 0 and `SetField` overwrites element 0. -/
theorem c9_vec_negative_index (L : Launcher) (f : Nat) (s : InterpState) (a : Nat)
    (q : ℚ) (x : Value) (hne : s.vecs.getD a [] ≠ [])
    (hq1 : q.den = 1) (hq2 : q.num < 0) :
    eval L (f + 2) (.getField (.literal (.vecV a)) (.literal (.num q))) s =
        .ok ((s.vecs.getD a []).headD .nil) s
    ∧ eval L (f + 2) (.setField (.literal (.vecV a)) (.literal (.num q)) (.literal x)) s
        = .ok x { s with vecs := s.vecs.set a ((s.vecs.getD a []).set 0 x) } := by
  obtain ⟨h0, t, hlst⟩ := List.exists_cons_of_ne_nil hne
  constructor
  · simp only [eval, hq1, toUsize_neg q.num hq2, hlst]
    rfl
  · simp only [eval, hq1, toUsize_neg q.num hq2, hlst]
    simp

/-- C9 witness: index `-3` into the two-element vec `["hd", "tl"]`
returns element 0. -/
theorem c9_vec_negative_index_witness :
    eval trivialLauncher 2 (.getField (.literal (.vecV 0)) (.literal (.num (-3))))
      { initState [] with vecs := [[.str "hd", .str "tl"]] } =
      .ok (.str "hd") { initState [] with vecs := [[.str "hd", .str "tl"]] } :=
  (c9_vec_negative_index trivialLauncher 0
      { initState [] with vecs := [[.str "hd", .str "tl"]] } 0 (-3) .nil
      (List.cons_ne_nil _ _) (by decide) (by decide)).1

/-- C10: a `For` over a `Range` with a second loop variable present fails
the `assert!` and aborts the run, and a `For` over a `Vec` or `Dict` with
the second loop variable absent fails the `expect` and aborts — the extra
or missing variable is never silently ignored. -/
theorem c10_for_variable_arity (L : Launcher) (f : Nat) (s : InterpState)
    (lvar rv : String) (body : Stmt) (l r : Int) (a b : Nat) :
    run_stmt L (f + 2) (.forS lvar (some rv) (.literal (.rangeV l r)) body) s =
        .err .forRangeSecondVar
    ∧ run_stmt L (f + 2) (.forS lvar none (.literal (.vecV a)) body) s =
        .err .forNeedsSecondVar
    ∧ run_stmt L (f + 2) (.forS lvar none (.literal (.dictV b)) body) s =
        .err .forNeedsSecondVar :=
  ⟨rfl, rfl, rfl⟩

end Koi
